import Mathlib

/-!
Verification of the attendance / authentication core of the absensiqr-siswa
repository.  The data model and operations below are a shallow embedding of
the TypeScript source: database tables become lists of records, time-of-day
values (`HH:MM` strings in the source) become minutes since midnight, and
timestamps become natural numbers (milliseconds since the epoch where the
source uses `Date.now()`).
-/

namespace AbsensiQr

/-- Attendance status, embedding the `attendanceStatusEnum` of
`src/server/src/db/schema.ts` (`present`, `late`, `absent`, `permitted`,
`sick`, `early_leave`). -/
inductive AttendanceStatus where
  | present
  | late
  | absent
  | permitted
  | sick
  | early_leave
deriving DecidableEq, Repr

/-- Class schedule row, embedding `classSchedulesTable` of
`src/server/src/db/schema.ts`.  `check_in_time` and `min_checkout_time` are
`HH:MM` strings in the source; here they are minutes since midnight. -/
structure ClassSchedule where
  id : Nat
  class_name : String
  check_in_time : Nat
  late_tolerance_minutes : Nat
  min_checkout_time : Nat
  is_active : Bool
deriving DecidableEq, Repr

/-- Student row, embedding `studentsTable` of `src/server/src/db/schema.ts`.
The source column `class` is a reserved word in Lean and is embedded as
`cls`. -/
structure Student where
  id : Nat
  nisn : String
  name : String
  cls : String
  qr_code : String
  user_id : Option Nat
  is_active : Bool
  created_at : Nat
  updated_at : Nat
deriving DecidableEq, Repr

/-- Wall-clock instant of a scan, split into the calendar date and the
time-of-day in minutes, as the spec's decision engine consumes it. -/
structure Instant where
  date : Nat
  timeOfDay : Nat
deriving DecidableEq, Repr

/-- Attendance record row, embedding `attendanceRecordsTable` of
`src/server/src/db/schema.ts`. -/
structure AttendanceRecord where
  id : Nat
  student_id : Nat
  date : Nat
  check_in_time : Option Instant
  check_out_time : Option Instant
  status : AttendanceStatus
  recorded_by : Nat
deriving DecidableEq, Repr

/-- Failure outcomes of the check-in orchestrator, from spec section 4.2 and
the error taxonomy of section 7. -/
inductive ScanError where
  | notFound
  | inactive
  | duplicateScan
deriving DecidableEq, Repr

/-- Modelled from the spec: the attendance decision engine's check-in rule
(spec section 4.1).  The implementation of `scanQrCodeForAttendance` in
`src/server/src/handlers/class_schedules.ts` is a placeholder stub, so the
decision logic is taken from the spec's words: with no schedule the policy
default PRESENT applies; otherwise a scan at or before `check_in_time` is
PRESENT, a scan at or before `check_in_time + late_tolerance_minutes` is
PRESENT, and any later scan is LATE. -/
def decideCheckIn (scanTod : Nat) (sched : Option ClassSchedule) : AttendanceStatus :=
  match sched with
  | none => .present
  | some s =>
    if scanTod ≤ s.check_in_time then .present
    else if scanTod ≤ s.check_in_time + s.late_tolerance_minutes then .present
    else .late

/-- Modelled from the spec: the attendance decision engine's checkout rule
(spec section 4.1).  A checkout before `min_checkout_time` overrides the
status to EARLY_LEAVE; otherwise the status decided at check-in is kept.
With no schedule configured no override applies. -/
def decideCheckout (scanTod : Nat) (sched : Option ClassSchedule)
    (checkInStatus : AttendanceStatus) : AttendanceStatus :=
  match sched with
  | none => checkInStatus
  | some s =>
    if scanTod < s.min_checkout_time then .early_leave else checkInStatus

/-- State visible to the check-in orchestrator: the student directory, the
schedule table and the attendance ledger.  `nextId` models the serial primary
key of `attendanceRecordsTable`. -/
structure ScanState where
  students : List Student
  schedules : List ClassSchedule
  ledger : List AttendanceRecord
  nextId : Nat
deriving Repr

/-- Records of the ledger for one (student, date) key. -/
def recordsFor (ledger : List AttendanceRecord) (sid date : Nat) :
    List AttendanceRecord :=
  ledger.filter (fun r => r.student_id == sid && r.date == date)

/-- Modelled from the spec: the check-in orchestrator `handle_scan` of spec
section 4.2, standing in for the placeholder `scanQrCodeForAttendance` of
`src/server/src/handlers/class_schedules.ts`.  It resolves the scanned code
to a student (NotFound / Inactive failures), looks up the day's record and
follows the two-scan state machine: no record means check-in (decision
engine check-in rule), an open record means checkout (checkout rule, same
record updated in place), and a completed record is rejected as
DuplicateScan with no mutation. -/
def scanQrCodeForAttendance (st : ScanState) (code : String) (recordedBy : Nat)
    (now : Instant) : ScanState × Except ScanError AttendanceRecord :=
  match st.students.find? (fun s => s.qr_code == code) with
  | none => (st, .error .notFound)
  | some stu =>
    if stu.is_active = false then (st, .error .inactive)
    else
      match st.ledger.find? (fun r => r.student_id == stu.id && r.date == now.date) with
      | none =>
        let sched := st.schedules.find? (fun s => s.class_name == stu.cls)
        let newRec : AttendanceRecord :=
          { id := st.nextId
            student_id := stu.id
            date := now.date
            check_in_time := some now
            check_out_time := none
            status := decideCheckIn now.timeOfDay sched
            recorded_by := recordedBy }
        ({ st with ledger := st.ledger ++ [newRec], nextId := st.nextId + 1 }, .ok newRec)
      | some r =>
        match r.check_out_time with
        | some _ => (st, .error .duplicateScan)
        | none =>
          let sched := st.schedules.find? (fun s => s.class_name == stu.cls)
          let updated : AttendanceRecord :=
            { r with
              check_out_time := some now
              status := decideCheckout now.timeOfDay sched r.status }
          ({ st with
              ledger := st.ledger.map (fun x => if x.id == r.id then updated else x) },
            .ok updated)

/-- Mapping a function that fixes every element of a list leaves the list
unchanged. -/
theorem map_eq_self_of {α : Type} (l : List α) (f : α → α) (h : ∀ x ∈ l, f x = x) :
    l.map f = l := by
  induction l with
  | nil => rfl
  | cons a t ih =>
    simp only [List.map_cons, h a (by simp), ih (fun x hx => h x (by simp [hx]))]

/-- Concrete student used to witness the orchestrator theorems. -/
def wStudent : Student :=
  { id := 1, nisn := "0012345678", name := "Witness", cls := "10A", qr_code := "QR_0012345678_1"
    user_id := none, is_active := true, created_at := 0, updated_at := 0 }

/-- Concrete schedule used to witness the orchestrator theorems: check-in at
07:00 (420 minutes), 15 minutes tolerance, minimum checkout 14:00. -/
def wSched : ClassSchedule :=
  { id := 1, class_name := "10A", check_in_time := 420, late_tolerance_minutes := 15
    min_checkout_time := 840, is_active := true }

/-- Concrete orchestrator state used to witness the orchestrator theorems. -/
def wState : ScanState :=
  { students := [wStudent], schedules := [wSched], ledger := [], nextId := 1 }

/-- New attendance record created by the check-in branch of the
orchestrator. -/
def checkinRecord (st : ScanState) (stu : Student) (rb : Nat) (now : Instant) :
    AttendanceRecord :=
  { id := st.nextId
    student_id := stu.id
    date := now.date
    check_in_time := some now
    check_out_time := none
    status := decideCheckIn now.timeOfDay
      (st.schedules.find? (fun s => s.class_name == stu.cls))
    recorded_by := rb }

/-- Updated record produced by the checkout branch of the orchestrator. -/
def checkoutUpdate (st : ScanState) (stu : Student) (r : AttendanceRecord)
    (now : Instant) : AttendanceRecord :=
  { r with
    check_out_time := some now
    status := decideCheckout now.timeOfDay
      (st.schedules.find? (fun s => s.class_name == stu.cls)) r.status }

/-- Reduction of the orchestrator on the check-in branch: active student
found, no record for the day yet. -/
theorem scan_checkin_eq (st : ScanState) (code : String) (rb : Nat)
    (now : Instant) (stu : Student)
    (hstu : st.students.find? (fun s => s.qr_code == code) = some stu)
    (hact : stu.is_active = true)
    (hno : st.ledger.find? (fun r => r.student_id == stu.id && r.date == now.date) = none) :
    scanQrCodeForAttendance st code rb now =
      ({ st with
          ledger := st.ledger ++ [checkinRecord st stu rb now]
          nextId := st.nextId + 1 },
        .ok (checkinRecord st stu rb now)) := by
  simp only [scanQrCodeForAttendance, hstu, hact, hno, checkinRecord]
  rfl

/-- Reduction of the orchestrator on the checkout branch: active student
found, open record (no checkout yet) for the day. -/
theorem scan_checkout_eq (st : ScanState) (code : String) (rb : Nat)
    (now : Instant) (stu : Student) (r : AttendanceRecord)
    (hstu : st.students.find? (fun s => s.qr_code == code) = some stu)
    (hact : stu.is_active = true)
    (hfound : st.ledger.find? (fun x => x.student_id == stu.id && x.date == now.date) = some r)
    (hopen : r.check_out_time = none) :
    scanQrCodeForAttendance st code rb now =
      ({ st with
          ledger := st.ledger.map
            (fun x => if x.id == r.id then checkoutUpdate st stu r now else x) },
        .ok (checkoutUpdate st stu r now)) := by
  simp only [scanQrCodeForAttendance, hstu, hact, hfound, hopen, checkoutUpdate]
  rfl

/-- C1: a scan handled by the orchestrator for a student whose class has a
schedule with check-in deadline `d` and tolerance `t` yields PRESENT when the
scan time-of-day is at most `d`, PRESENT when it is at most `d + t`, and LATE
when it is strictly greater than `d + t`: the tolerance window is inclusive
at both endpoints. -/
theorem scan_checkin_status_window (st : ScanState) (code : String) (rb : Nat)
    (now : Instant) (stu : Student) (sched : ClassSchedule)
    (hstu : st.students.find? (fun s => s.qr_code == code) = some stu)
    (hact : stu.is_active = true)
    (hno : st.ledger.find? (fun r => r.student_id == stu.id && r.date == now.date) = none)
    (hsch : st.schedules.find? (fun s => s.class_name == stu.cls) = some sched) :
    ∃ r, (scanQrCodeForAttendance st code rb now).2 = .ok r ∧
      (now.timeOfDay ≤ sched.check_in_time → r.status = .present) ∧
      (now.timeOfDay ≤ sched.check_in_time + sched.late_tolerance_minutes →
        r.status = .present) ∧
      (sched.check_in_time + sched.late_tolerance_minutes < now.timeOfDay →
        r.status = .late) := by
  simp only [scanQrCodeForAttendance, hstu, hact, hno, hsch]
  refine ⟨_, rfl, ?_, ?_, ?_⟩
  · intro h
    simp only [decideCheckIn]
    rw [if_pos h]
  · intro h
    simp only [decideCheckIn]
    by_cases h1 : now.timeOfDay ≤ sched.check_in_time
    · rw [if_pos h1]
    · rw [if_neg h1, if_pos h]
  · intro h
    simp only [decideCheckIn]
    rw [if_neg (by omega), if_neg (by omega)]

/-- Instantiation of the C1 theorem: scan at 07:20 with deadline 07:00 and
tolerance 15 minutes on the concrete witness state. -/
theorem scan_checkin_status_window_witness :
    ∃ r, (scanQrCodeForAttendance wState "QR_0012345678_1" 7 ⟨0, 440⟩).2 = .ok r ∧
      ((440 : Nat) ≤ wSched.check_in_time → r.status = .present) ∧
      ((440 : Nat) ≤ wSched.check_in_time + wSched.late_tolerance_minutes →
        r.status = .present) ∧
      (wSched.check_in_time + wSched.late_tolerance_minutes < 440 →
        r.status = .late) :=
  scan_checkin_status_window wState "QR_0012345678_1" 7 ⟨0, 440⟩ wStudent wSched
    (by decide) (by decide) (by decide) (by decide)

/-- C2: starting from a ledger with no record for the student's (id, date)
key, the first scan creates a record carrying a check-in timestamp and no
checkout, and the ledger then holds exactly that one record for the key; a
second scan on the same date succeeds and sets the checkout timestamp on the
same record (same id, same check-in), after which the ledger still holds
exactly one record for the key. -/
theorem scan_two_scan_protocol (st : ScanState) (code : String) (rb1 rb2 : Nat)
    (now1 now2 : Instant) (stu : Student)
    (hstu : st.students.find? (fun s => s.qr_code == code) = some stu)
    (hact : stu.is_active = true)
    (hno : st.ledger.find? (fun r => r.student_id == stu.id && r.date == now1.date) = none)
    (hfresh : ∀ r ∈ st.ledger, r.id < st.nextId)
    (hdate : now2.date = now1.date) :
    ∃ r1 r2 st1 st2,
      scanQrCodeForAttendance st code rb1 now1 = (st1, .ok r1) ∧
      r1.check_in_time = some now1 ∧ r1.check_out_time = none ∧
      recordsFor st1.ledger stu.id now1.date = [r1] ∧
      scanQrCodeForAttendance st1 code rb2 now2 = (st2, .ok r2) ∧
      r2.id = r1.id ∧ r2.check_in_time = some now1 ∧
      r2.check_out_time = some now2 ∧
      recordsFor st2.ledger stu.id now1.date = [r2] := by
  have hall : ∀ x ∈ st.ledger,
      ¬ ((x.student_id == stu.id && x.date == now1.date) = true) := by
    rw [← List.find?_eq_none]
    exact hno
  have hfilter :
      st.ledger.filter (fun r => r.student_id == stu.id && r.date == now1.date) = [] :=
    List.filter_eq_nil_iff.mpr hall
  have hr1mem : ((checkinRecord st stu rb1 now1).student_id == stu.id &&
      (checkinRecord st stu rb1 now1).date == now1.date) = true := by
    simp [checkinRecord]
  set st1 : ScanState :=
    { st with ledger := st.ledger ++ [checkinRecord st stu rb1 now1], nextId := st.nextId + 1 }
    with hst1
  have hfound1 : st1.ledger.find?
      (fun x => x.student_id == stu.id && x.date == now2.date) =
      some (checkinRecord st stu rb1 now1) := by
    rw [hst1, hdate]
    simp only [List.find?_append, hno, Option.none_or]
    simp [checkinRecord]
  have heq2 := scan_checkout_eq st1 code rb2 now2 stu (checkinRecord st stu rb1 now1)
    hstu hact hfound1 rfl
  have hmap : st.ledger.map
      (fun x => if x.id == (checkinRecord st stu rb1 now1).id
        then checkoutUpdate st1 stu (checkinRecord st stu rb1 now1) now2 else x) =
      st.ledger := by
    refine map_eq_self_of _ _ (fun x hx => ?_)
    have hlt := hfresh x hx
    have hne : (x.id == (checkinRecord st stu rb1 now1).id) = false := by
      simp [checkinRecord]
      omega
    rw [hne]
    rfl
  refine ⟨checkinRecord st stu rb1 now1,
    checkoutUpdate st1 stu (checkinRecord st stu rb1 now1) now2, st1, _,
    scan_checkin_eq st code rb1 now1 stu hstu hact hno, rfl, rfl, ?_, heq2, rfl, rfl, rfl, ?_⟩
  · rw [hst1]
    simp only [recordsFor, List.filter_append, hfilter, List.nil_append]
    simp [hr1mem]
  · simp only [hst1]
    simp only [recordsFor, List.map_append, hmap, List.filter_append, hfilter,
      List.nil_append]
    simp [checkinRecord, checkoutUpdate]

/-- Instantiation of the C2 theorem: first scan at 07:10 and checkout scan at
14:05 on the same date, on the concrete witness state. -/
theorem scan_two_scan_protocol_witness :
    ∃ r1 r2 st1 st2,
      scanQrCodeForAttendance wState "QR_0012345678_1" 7 ⟨3, 430⟩ = (st1, .ok r1) ∧
      r1.check_in_time = some ⟨3, 430⟩ ∧ r1.check_out_time = none ∧
      recordsFor st1.ledger wStudent.id 3 = [r1] ∧
      scanQrCodeForAttendance st1 "QR_0012345678_1" 9 ⟨3, 845⟩ = (st2, .ok r2) ∧
      r2.id = r1.id ∧ r2.check_in_time = some ⟨3, 430⟩ ∧
      r2.check_out_time = some ⟨3, 845⟩ ∧
      recordsFor st2.ledger wStudent.id 3 = [r2] :=
  scan_two_scan_protocol wState "QR_0012345678_1" 7 9 ⟨3, 430⟩ ⟨3, 845⟩ wStudent
    (by decide) (by decide) (by decide) (by decide) (by decide)

/-- C3: when the day's record already carries both a check-in and a checkout
timestamp, a further scan fails with DuplicateScan and returns the state
completely unchanged: no record field is mutated. -/
theorem scan_duplicate_rejected (st : ScanState) (code : String) (rb : Nat)
    (now : Instant) (stu : Student) (r : AttendanceRecord) (t : Instant)
    (hstu : st.students.find? (fun s => s.qr_code == code) = some stu)
    (hact : stu.is_active = true)
    (hfound : st.ledger.find? (fun x => x.student_id == stu.id && x.date == now.date) = some r)
    (hdone : r.check_out_time = some t) :
    scanQrCodeForAttendance st code rb now = (st, .error .duplicateScan) := by
  simp only [scanQrCodeForAttendance, hstu, hact, hfound, hdone]
  rfl

/-- Instantiation of the C3 theorem: a third scan against a completed record
on a concrete state. -/
theorem scan_duplicate_rejected_witness :
    scanQrCodeForAttendance
      { students := [wStudent], schedules := [wSched]
        ledger := [{ id := 1, student_id := 1, date := 3
                     check_in_time := some ⟨3, 430⟩, check_out_time := some ⟨3, 845⟩
                     status := .present, recorded_by := 7 }]
        nextId := 2 } "QR_0012345678_1" 7 ⟨3, 900⟩ =
      ({ students := [wStudent], schedules := [wSched]
         ledger := [{ id := 1, student_id := 1, date := 3
                      check_in_time := some ⟨3, 430⟩, check_out_time := some ⟨3, 845⟩
                      status := .present, recorded_by := 7 }]
         nextId := 2 }, .error .duplicateScan) :=
  scan_duplicate_rejected _ "QR_0012345678_1" 7 ⟨3, 900⟩ wStudent
    { id := 1, student_id := 1, date := 3
      check_in_time := some ⟨3, 430⟩, check_out_time := some ⟨3, 845⟩
      status := .present, recorded_by := 7 } ⟨3, 845⟩
    (by decide) (by decide) (by decide) (by decide)

/-- User row, embedding `usersTable` of `src/server/src/db/schema.ts`.  The
role enum is embedded as a string, as the token payload carries it. -/
structure User where
  id : Nat
  username : String
  password_hash : String
  role : String
  full_name : String
  email : Option String
  is_active : Bool
  created_at : Nat
  updated_at : Nat
deriving DecidableEq, Repr

/-- Input of `createStudent` (`createStudentInputSchema` of
`src/server/src/schema.ts`).  The source field `class` is embedded as
`cls`. -/
structure CreateStudentInput where
  nisn : String
  name : String
  cls : String
  user_id : Option Nat
deriving Repr

/-- Input of `updateStudent` (`updateStudentInputSchema`).  Outer `Option`
is zod `optional` (field absent), the inner `Option` on `user_id` is its
nullability. -/
structure UpdateStudentInput where
  id : Nat
  nisn : Option String
  name : Option String
  cls : Option String
  user_id : Option (Option Nat)
  is_active : Option Bool
deriving Repr

/-- QR code generation of `handlers/students.ts`:
`QR_<nisn>_<Date.now()>`. -/
def generateQrCode (nisn : String) (now : Nat) : String :=
  "QR_" ++ nisn ++ "_" ++ toString now

/-- Database state the student handlers operate on.  `nextId` models the
serial primary key of `studentsTable`. -/
structure StudentsDb where
  students : List Student
  users : List User
  nextId : Nat
deriving Repr

/-- Unique-constraint check of `studentsTable`
(`src/server/src/db/schema.ts`: `nisn` and `qr_code` are `.unique()`): a row
written for primary key `rid` violates the constraint when any other row
shares its `nisn` or `qr_code`. -/
def violatesStudentUnique (students : List Student) (rid : Nat) (row : Student) : Bool :=
  students.any (fun s => s.id != rid && (s.nisn == row.nisn || s.qr_code == row.qr_code))

/-- Embedding of `createStudent` of `handlers/students.ts`: app-level NISN
duplicate check, user existence check (the source guard `if (input.user_id)`
is JS-truthy, so `null` and `0` skip it), QR generation, then the insert,
which is subject to the table's unique constraints. -/
def createStudent (db : StudentsDb) (input : CreateStudentInput) (now : Nat) :
    StudentsDb × Except String Student :=
  if (db.students.filter (fun s => s.nisn == input.nisn)).isEmpty = false then
    (db, .error "Student with this NISN already exists")
  else
    let userCheckFails : Bool :=
      match input.user_id with
      | some uid =>
        if uid == 0 then false else (db.users.find? (fun u => u.id == uid)).isNone
      | none => false
    if userCheckFails then (db, .error "Referenced user does not exist")
    else
      let row : Student :=
        { id := db.nextId
          nisn := input.nisn
          name := input.name
          cls := input.cls
          qr_code := generateQrCode input.nisn now
          user_id := input.user_id
          is_active := true
          created_at := now
          updated_at := now }
      if violatesStudentUnique db.students db.nextId row then
        (db, .error "duplicate key value violates unique constraint")
      else
        ({ db with students := db.students ++ [row], nextId := db.nextId + 1 }, .ok row)

/-- Embedding of `updateStudent` of `handlers/students.ts`.  The app-level
NISN uniqueness check is modelled exactly as written in the source: it
selects rows with `nisn = input.nisn AND id = input.id` (the same student's
own id), and the update statement is subject to the unique constraints of
`studentsTable`.  The source guard `input.nisn && input.nisn !==
existing.nisn` is JS-truthy, so an empty string skips the check. -/
def updateStudent (db : StudentsDb) (input : UpdateStudentInput) (now : Nat) :
    StudentsDb × Except String Student :=
  match db.students.find? (fun s => s.id == input.id) with
  | none => (db, .error "Student not found")
  | some existing =>
    let nisnDup : Bool :=
      match input.nisn with
      | some n =>
        if n = "" then false
        else if n = existing.nisn then false
        else (db.students.filter (fun s => s.nisn == n && s.id == input.id)).isEmpty = false
      | none => false
    if nisnDup then (db, .error "Student with this NISN already exists")
    else
      let userCheckFails : Bool :=
        match input.user_id with
        | some (some uid) => (db.users.find? (fun u => u.id == uid)).isNone
        | _ => false
      if userCheckFails then (db, .error "Referenced user does not exist")
      else
        let newRow : Student :=
          { existing with
            updated_at := now
            nisn := input.nisn.getD existing.nisn
            qr_code :=
              match input.nisn with
              | some n => if n = existing.nisn then existing.qr_code else generateQrCode n now
              | none => existing.qr_code
            name := input.name.getD existing.name
            cls := input.cls.getD existing.cls
            user_id := input.user_id.getD existing.user_id
            is_active := input.is_active.getD existing.is_active }
        if violatesStudentUnique db.students input.id newRow then
          (db, .error "duplicate key value violates unique constraint")
        else
          ({ db with
              students := db.students.map (fun s => if s.id == input.id then newRow else s) },
            .ok newRow)

/-- Embedding of `deleteStudent` of `handlers/students.ts`: soft delete,
setting `is_active := false` and `updated_at` on the matching row. -/
def deleteStudent (students : List Student) (idv now : Nat) : List Student × Bool :=
  match students.find? (fun s => s.id == idv) with
  | none => (students, false)
  | some _ =>
    (students.map (fun s =>
       if s.id == idv then { s with is_active := false, updated_at := now } else s),
      true)

/-- One row of the dynamic CSV input of `importStudentsFromCsv`.  The source
checks fields with JS truthiness (`!row.nisn`), so a missing field and an
empty string behave identically and both are embedded as `""`. -/
structure CsvRow where
  nisn : String
  name : String
  cls : String
  user_id : Option Nat
deriving Repr

/-- One entry of the `errors` array of `csvImportResultSchema`
(`src/server/src/schema.ts`); `row` is the 1-based row number. -/
structure CsvError where
  row : Nat
  reason : String
deriving DecidableEq, Repr

/-- Result shape of `importStudentsFromCsv` (`csvImportResultSchema`). -/
structure CsvImportResult where
  total : Nat
  success : Nat
  failed : Nat
  errors : List CsvError
deriving Repr

/-- Source expression `row.user_id || null`: JS truthiness maps `0`,
`null` and `undefined` to `null`. -/
def normUserId : Option Nat → Option Nat
  | some 0 => none
  | x => x

/-- Loop body of `importStudentsFromCsv` of `handlers/students.ts`,
processing rows from 0-based index `idx` and returning the final database,
the success count, the failure count and the error entries in row order. -/
def importLoop (db : StudentsDb) (rows : List CsvRow) (idx now : Nat) :
    StudentsDb × Nat × Nat × List CsvError :=
  match rows with
  | [] => (db, 0, 0, [])
  | row :: rest =>
    if row.nisn = "" ∨ row.name = "" ∨ row.cls = "" then
      let r := importLoop db rest (idx + 1) now
      (r.1, r.2.1, r.2.2.1 + 1,
        ⟨idx + 1, "Missing required fields (nisn, name, class)"⟩ :: r.2.2.2)
    else if (db.students.filter (fun s => s.nisn == row.nisn)).isEmpty = false then
      let r := importLoop db rest (idx + 1) now
      (r.1, r.2.1, r.2.2.1 + 1,
        ⟨idx + 1, "Student with this NISN already exists"⟩ :: r.2.2.2)
    else
      match createStudent db ⟨row.nisn, row.name, row.cls, normUserId row.user_id⟩ now with
      | (db2, .ok _) =>
        let r := importLoop db2 rest (idx + 1) now
        (r.1, r.2.1 + 1, r.2.2.1, r.2.2.2)
      | (db2, .error msg) =>
        let r := importLoop db2 rest (idx + 1) now
        (r.1, r.2.1, r.2.2.1 + 1, ⟨idx + 1, msg⟩ :: r.2.2.2)

/-- Embedding of `importStudentsFromCsv` of `handlers/students.ts`:
`total` is the input length, the loop accumulates `success`, `failed` and
per-row error entries. -/
def importStudentsFromCsv (db : StudentsDb) (rows : List CsvRow) (now : Nat) :
    StudentsDb × CsvImportResult :=
  let r := importLoop db rows 0 now
  (r.1, { total := rows.length, success := r.2.1, failed := r.2.2.1, errors := r.2.2.2 })

/-- Zipping a mapped list with the original pairs each element with its
image. -/
theorem zip_map_self {α : Type} (f : α → α) (l : List α) :
    (l.map f).zip l = l.map (fun x => (f x, x)) := by
  induction l with
  | nil => rfl
  | cons a t ih => simp [ih]

/-- Second concrete student (distinct id, nisn, qr code) used to witness the
NISN-collision theorem. -/
def wStudent2 : Student :=
  { id := 2, nisn := "0099999999", name := "Other", cls := "10B", qr_code := "QR_0099999999_2"
    user_id := none, is_active := true, created_at := 0, updated_at := 0 }

/-- C8: updating one student's NISN to another existing student's NISN is
rejected with an error and the database is returned unchanged, so the update
cannot make two students share a national ID.  The proof runs through the
app-level duplicate check exactly as the source wrote it (`nisn = input.nisn
AND id = input.id`), which never fires here; the rejection comes from the
`studentsTable` unique constraint on `nisn`. -/
theorem update_nisn_collision_rejected (db : StudentsDb) (s1 s2 : Student) (now : Nat)
    (hfind : db.students.find? (fun s => s.id == s1.id) = some s1)
    (hids : ∀ s ∈ db.students, s.id = s1.id → s = s1)
    (hmem2 : s2 ∈ db.students)
    (hne : s2.id ≠ s1.id)
    (hnisn : s1.nisn ≠ s2.nisn)
    (hnempty : s2.nisn ≠ "") :
    updateStudent db
      { id := s1.id, nisn := some s2.nisn, name := none, cls := none
        user_id := none, is_active := none } now =
      (db, .error "duplicate key value violates unique constraint") := by
  have hfilter : db.students.filter (fun s => s.nisn == s2.nisn && s.id == s1.id) = [] := by
    refine List.filter_eq_nil_iff.mpr (fun x hx hpx => ?_)
    simp only [Bool.and_eq_true, beq_iff_eq] at hpx
    exact hnisn ((hids x hx hpx.2 ▸ hpx.1).symm ▸ rfl)
  have hviol : violatesStudentUnique db.students s1.id
      { s1 with
        updated_at := now
        nisn := s2.nisn
        qr_code := generateQrCode s2.nisn now
        name := s1.name, cls := s1.cls, user_id := s1.user_id
        is_active := s1.is_active } = true := by
    simp only [violatesStudentUnique, List.any_eq_true]
    exact ⟨s2, hmem2, by simp [hne]⟩
  have hns : s2.nisn ≠ s1.nisn := fun h => hnisn h.symm
  simp only [updateStudent, hfind, hfilter]
  simp [hnempty, hns, hviol]

/-- Instantiation of the C8 theorem on a concrete two-student database. -/
theorem update_nisn_collision_rejected_witness :
    updateStudent { students := [wStudent, wStudent2], users := [], nextId := 3 }
      { id := 1, nisn := some "0099999999", name := none, cls := none
        user_id := none, is_active := none } 5 =
      ({ students := [wStudent, wStudent2], users := [], nextId := 3 },
        .error "duplicate key value violates unique constraint") :=
  update_nisn_collision_rejected
    { students := [wStudent, wStudent2], users := [], nextId := 3 } wStudent wStudent2 5
    (by decide) (by decide) (by decide) (by decide) (by decide) (by decide)

/-- C9: the CSV import reports `total` equal to the number of input rows,
`success + failed = total`, and exactly one error entry per failed row, each
carrying a 1-based row number within range and all row numbers strictly
increasing (hence distinct). -/
theorem import_csv_accounting (db : StudentsDb) (rows : List CsvRow) (now : Nat) :
    (importStudentsFromCsv db rows now).2.total = rows.length ∧
    (importStudentsFromCsv db rows now).2.success +
      (importStudentsFromCsv db rows now).2.failed =
      (importStudentsFromCsv db rows now).2.total ∧
    (importStudentsFromCsv db rows now).2.errors.length =
      (importStudentsFromCsv db rows now).2.failed ∧
    (importStudentsFromCsv db rows now).2.errors.Pairwise (fun a b => a.row < b.row) ∧
    ∀ e ∈ (importStudentsFromCsv db rows now).2.errors,
      1 ≤ e.row ∧ e.row ≤ (importStudentsFromCsv db rows now).2.total := by
  suffices h : ∀ (rs : List CsvRow) (d : StudentsDb) (idx : Nat),
      (importLoop d rs idx now).2.1 + (importLoop d rs idx now).2.2.1 = rs.length ∧
      (importLoop d rs idx now).2.2.2.length = (importLoop d rs idx now).2.2.1 ∧
      (importLoop d rs idx now).2.2.2.Pairwise (fun a b => a.row < b.row) ∧
      ∀ e ∈ (importLoop d rs idx now).2.2.2,
        idx + 1 ≤ e.row ∧ e.row ≤ idx + rs.length by
    obtain ⟨h1, h2, h3, h4⟩ := h rows db 0
    exact ⟨rfl, h1, h2, h3, fun e he => by simpa using h4 e he⟩
  intro rs
  induction rs with
  | nil => intro d idx; simp [importLoop]
  | cons row rest ih =>
    intro d idx
    have harm : ∀ (msg : String) (r : StudentsDb × Nat × Nat × List CsvError),
        r.2.1 + r.2.2.1 = rest.length →
        r.2.2.2.length = r.2.2.1 →
        r.2.2.2.Pairwise (fun a b => a.row < b.row) →
        (∀ e ∈ r.2.2.2, idx + 1 + 1 ≤ e.row ∧ e.row ≤ idx + 1 + rest.length) →
        r.2.1 + (r.2.2.1 + 1) = (row :: rest).length ∧
        (CsvError.mk (idx + 1) msg :: r.2.2.2).length = r.2.2.1 + 1 ∧
        (CsvError.mk (idx + 1) msg :: r.2.2.2).Pairwise (fun a b => a.row < b.row) ∧
        ∀ e ∈ (CsvError.mk (idx + 1) msg :: r.2.2.2),
          idx + 1 ≤ e.row ∧ e.row ≤ idx + (row :: rest).length := by
      intro msg r h1 h2 h3 h4
      refine ⟨by simp only [List.length_cons]; omega, by simp [h2], ?_, ?_⟩
      · refine List.pairwise_cons.mpr ⟨fun e he => ?_, h3⟩
        have := h4 e he
        show idx + 1 < e.row
        omega
      · intro e he
        simp only [List.length_cons]
        rcases List.mem_cons.mp he with rfl | he
        · exact ⟨by show idx + 1 ≤ idx + 1; omega,
            by show idx + 1 ≤ idx + (rest.length + 1); omega⟩
        · have := h4 e he
          omega
    simp only [importLoop]
    split
    · exact harm _ _ (ih d (idx + 1)).1 (ih d (idx + 1)).2.1 (ih d (idx + 1)).2.2.1
        (ih d (idx + 1)).2.2.2
    · split
      · exact harm _ _ (ih d (idx + 1)).1 (ih d (idx + 1)).2.1 (ih d (idx + 1)).2.2.1
          (ih d (idx + 1)).2.2.2
      · split
        · rename_i db2 val heq
          obtain ⟨h1, h2, h3, h4⟩ := ih db2 (idx + 1)
          refine ⟨by simp only [List.length_cons]; omega, by simp [h2], h3, ?_⟩
          intro e he
          have := h4 e he
          simp only [List.length_cons]
          omega
        · rename_i db2 msg heq
          exact harm _ _ (ih db2 (idx + 1)).1 (ih db2 (idx + 1)).2.1 (ih db2 (idx + 1)).2.2.1
            (ih db2 (idx + 1)).2.2.2

/-- Instantiation of the C9 theorem on a concrete three-row import (one
valid row, one missing-field row, one duplicate of the first). -/
theorem import_csv_accounting_witness :
    ∀ e ∈ (importStudentsFromCsv { students := [], users := [], nextId := 1 }
      [⟨"0012345678", "A", "10A", none⟩, ⟨"", "B", "10B", none⟩,
        ⟨"0012345678", "C", "10C", none⟩] 5).2.errors,
      1 ≤ e.row ∧ e.row ≤ (importStudentsFromCsv { students := [], users := [], nextId := 1 }
        [⟨"0012345678", "A", "10A", none⟩, ⟨"", "B", "10B", none⟩,
          ⟨"0012345678", "C", "10C", none⟩] 5).2.total :=
  (import_csv_accounting { students := [], users := [], nextId := 1 }
    [⟨"0012345678", "A", "10A", none⟩, ⟨"", "B", "10B", none⟩,
      ⟨"0012345678", "C", "10C", none⟩] 5).2.2.2.2

/-- C10: `deleteStudent` is a pure soft delete with a minimal frame.  If no
row has the id it returns `false` and the rows are unchanged.  If a row has
the id it returns `true`, the row count is preserved, every row keeps its
id, nisn, name, class, qr_code, user_id and created_at, rows with a
different id are completely unchanged, and the matching row gets
`is_active = false` and the new `updated_at`. -/
theorem delete_student_frame (students : List Student) (idv now : Nat) :
    (students.find? (fun s => s.id == idv) = none →
      deleteStudent students idv now = (students, false)) ∧
    (∀ s0, students.find? (fun s => s.id == idv) = some s0 →
      ∃ l, deleteStudent students idv now = (l, true) ∧
        l.length = students.length ∧
        ∀ p ∈ l.zip students,
          p.1.id = p.2.id ∧ p.1.nisn = p.2.nisn ∧ p.1.name = p.2.name ∧
          p.1.cls = p.2.cls ∧ p.1.qr_code = p.2.qr_code ∧
          p.1.user_id = p.2.user_id ∧ p.1.created_at = p.2.created_at ∧
          (p.2.id ≠ idv → p.1 = p.2) ∧
          (p.2.id = idv → p.1.is_active = false ∧ p.1.updated_at = now)) := by
  constructor
  · intro h
    simp [deleteStudent, h]
  · intro s0 h
    refine ⟨students.map (fun s =>
        if s.id == idv then { s with is_active := false, updated_at := now } else s),
      by simp [deleteStudent, h], by simp, ?_⟩
    rw [zip_map_self]
    intro p hp
    obtain ⟨x, hx, rfl⟩ := List.mem_map.mp hp
    by_cases hid : x.id = idv
    · simp [hid]
    · have : (x.id == idv) = false := by simp [hid]
      simp [this, hid]

/-- Instantiation of the C10 theorem: deleting a missing id and deleting an
existing id on a concrete one-student list. -/
theorem delete_student_frame_witness :
    (deleteStudent [wStudent] 99 5 = ([wStudent], false)) ∧
    (∃ l, deleteStudent [wStudent] 1 5 = (l, true) ∧
      l.length = [wStudent].length ∧
      ∀ p ∈ l.zip [wStudent],
        p.1.id = p.2.id ∧ p.1.nisn = p.2.nisn ∧ p.1.name = p.2.name ∧
        p.1.cls = p.2.cls ∧ p.1.qr_code = p.2.qr_code ∧
        p.1.user_id = p.2.user_id ∧ p.1.created_at = p.2.created_at ∧
        (p.2.id ≠ 1 → p.1 = p.2) ∧
        (p.2.id = 1 → p.1.is_active = false ∧ p.1.updated_at = 5)) :=
  ⟨(delete_student_frame [wStudent] 99 5).1 (by decide),
   (delete_student_frame [wStudent] 1 5).2 wStudent (by decide)⟩

/-- Standard base64 alphabet used by the platform `btoa` / `atob` pair that
`handlers/auth.ts` builds its token on. -/
def b64Alphabet : List Char :=
  "ABCDEFGHIJKLMNOPQRSTUVWXYZabcdefghijklmnopqrstuvwxyz0123456789+/".toList

/-- Character for a six-bit group. -/
def b64Char (n : Nat) : Char := b64Alphabet.getD n 'A'

/-- Six-bit value of a base64 character, `none` for a character outside the
alphabet. -/
def b64Index (c : Char) : Option Nat := b64Alphabet.indexOf? c

/-- Base64 encoding of a byte list, three bytes to four characters with `=`
padding: the byte-level content of the platform `btoa`. -/
def encodeChunks : List Nat → List Char
  | [] => []
  | [b1] => [b64Char (b1 / 4), b64Char (b1 % 4 * 16), '=', '=']
  | [b1, b2] =>
    [b64Char (b1 / 4), b64Char (b1 % 4 * 16 + b2 / 16), b64Char (b2 % 16 * 4), '=']
  | b1 :: b2 :: b3 :: rest =>
    b64Char (b1 / 4) :: b64Char (b1 % 4 * 16 + b2 / 16) ::
      b64Char (b2 % 16 * 4 + b3 / 64) :: b64Char (b3 % 64) :: encodeChunks rest

/-- Base64 decoding of a character list, `none` on a malformed input: the
byte-level content of the platform `atob`, whose exceptions the source
catches.  Like `atob`, discarded padding bits are not validated. -/
def decodeChunks : List Char → Option (List Nat)
  | [] => some []
  | c1 :: c2 :: c3 :: c4 :: rest =>
    match b64Index c1, b64Index c2 with
    | some n1, some n2 =>
      if c3 = '=' then
        if c4 = '=' ∧ rest = [] then some [n1 * 4 + n2 / 16] else none
      else
        match b64Index c3 with
        | some n3 =>
          if c4 = '=' then
            if rest = [] then some [n1 * 4 + n2 / 16, n2 % 16 * 16 + n3 / 4] else none
          else
            match b64Index c4 with
            | some n4 =>
              (decodeChunks rest).map (fun ds =>
                (n1 * 4 + n2 / 16) :: (n2 % 16 * 16 + n3 / 4) :: (n3 % 4 * 64 + n4) :: ds)
            | none => none
        | none => none
    | _, _ => none
  | _ => none

/-- Platform `btoa`: encodes a latin1 string, `none` (an
`InvalidCharacterError` in JS) when a character is above `0xFF`. -/
def btoa (s : String) : Option String :=
  if s.data.all (fun c => c.toNat ≤ 255) then
    some (String.mk (encodeChunks (s.data.map Char.toNat)))
  else none

/-- Decoding a six-bit value's character recovers the value. -/
theorem b64Index_b64Char : ∀ n, n < 64 → b64Index (b64Char n) = some n := by
  decide

/-- Base64 characters are never `=` or `.`. -/
theorem b64Char_ne (n : Nat) : b64Char n ≠ '=' ∧ b64Char n ≠ '.' := by
  by_cases h : n < 64
  · exact (by decide : ∀ m, m < 64 → b64Char m ≠ '=' ∧ b64Char m ≠ '.') n h
  · have hd : b64Char n = 'A' := by
      have hlen : b64Alphabet.length ≤ n := by
        have : b64Alphabet.length = 64 := by decide
        omega
      simp [b64Char, List.getD, List.getElem?_eq_none hlen]
    rw [hd]
    exact ⟨by decide, by decide⟩

/-- Characters of a base64 encoding are alphabet characters or padding,
hence never `.`. -/
theorem encodeChunks_ne_dot (bs : List Nat) : ∀ c ∈ encodeChunks bs, c ≠ '.' := by
  induction bs using encodeChunks.induct with
  | case1 => intro c hc; simp [encodeChunks] at hc
  | case2 b1 =>
    intro c hc
    simp only [encodeChunks, List.mem_cons, List.not_mem_nil, or_false] at hc
    rcases hc with h | h | h | h
    · rw [h]; exact (b64Char_ne _).2
    · rw [h]; exact (b64Char_ne _).2
    · rw [h]; decide
    · rw [h]; decide
  | case3 b1 b2 =>
    intro c hc
    simp only [encodeChunks, List.mem_cons, List.not_mem_nil, or_false] at hc
    rcases hc with h | h | h | h
    · rw [h]; exact (b64Char_ne _).2
    · rw [h]; exact (b64Char_ne _).2
    · rw [h]; exact (b64Char_ne _).2
    · rw [h]; decide
  | case4 b1 b2 b3 rest ih =>
    intro c hc
    simp only [encodeChunks, List.mem_cons] at hc
    rcases hc with h | h | h | h | h
    · rw [h]; exact (b64Char_ne _).2
    · rw [h]; exact (b64Char_ne _).2
    · rw [h]; exact (b64Char_ne _).2
    · rw [h]; exact (b64Char_ne _).2
    · exact ih c h

/-- Decoding a base64 encoding of bytes recovers the bytes. -/
theorem decodeChunks_encodeChunks (bs : List Nat) (h : ∀ b ∈ bs, b < 256) :
    decodeChunks (encodeChunks bs) = some bs := by
  induction bs using encodeChunks.induct with
  | case1 => simp [encodeChunks, decodeChunks]
  | case2 b1 =>
    have hb1 : b1 < 256 := h b1 (by simp)
    simp only [encodeChunks, decodeChunks]
    rw [b64Index_b64Char _ (by omega), b64Index_b64Char _ (by omega)]
    simp
    omega
  | case3 b1 b2 =>
    have hb1 : b1 < 256 := h b1 (by simp)
    have hb2 : b2 < 256 := h b2 (by simp)
    simp only [encodeChunks, decodeChunks]
    rw [b64Index_b64Char _ (by omega), b64Index_b64Char _ (by omega)]
    simp [(b64Char_ne (b2 % 16 * 4)).1,
      b64Index_b64Char _ (show b2 % 16 * 4 < 64 by omega)]
    constructor
    · omega
    · omega
  | case4 b1 b2 b3 rest ih =>
    have hb1 : b1 < 256 := h b1 (by simp)
    have hb2 : b2 < 256 := h b2 (by simp)
    have hb3 : b3 < 256 := h b3 (by simp)
    have hrest : ∀ b ∈ rest, b < 256 := fun b hb => h b (by simp [hb])
    simp only [encodeChunks, decodeChunks]
    rw [b64Index_b64Char _ (by omega), b64Index_b64Char _ (by omega)]
    simp [(b64Char_ne (b2 % 16 * 4 + b3 / 64)).1, (b64Char_ne (b3 % 64)).1,
      b64Index_b64Char _ (show b2 % 16 * 4 + b3 / 64 < 64 by omega),
      b64Index_b64Char _ (show b3 % 64 < 64 by omega), ih hrest]
    refine ⟨by omega, by omega, by omega⟩

/-- Platform `String.split('.')` of `validateToken`, over character lists:
splits at every dot, keeping empty segments (`"".split('.')` is `[""]`). -/
def splitDot : List Char → List (List Char)
  | [] => [[]]
  | c :: rest =>
    if c = '.' then [] :: splitDot rest
    else
      match splitDot rest with
      | [] => [[c]]
      | h :: t => (c :: h) :: t

/-- Splitting a dot-free list yields the single segment. -/
theorem splitDot_no_dot (l : List Char) (h : ∀ c ∈ l, c ≠ '.') :
    splitDot l = [l] := by
  induction l with
  | nil => rfl
  | cons c rest ih =>
    have hc : c ≠ '.' := h c (by simp)
    have := ih (fun x hx => h x (by simp [hx]))
    simp only [splitDot, if_neg hc, this]

/-- Splitting `a ++ "." ++ b` with dot-free `a` and `b` yields exactly the
two segments. -/
theorem splitDot_two (a b : List Char) (ha : ∀ c ∈ a, c ≠ '.')
    (hb : ∀ c ∈ b, c ≠ '.') :
    splitDot (a ++ '.' :: b) = [a, b] := by
  induction a with
  | nil => simp [splitDot, splitDot_no_dot b hb]
  | cons c a' ih =>
    have hc : c ≠ '.' := ha c (by simp)
    have := ih (fun x hx => ha x (by simp [hx]))
    simp only [List.cons_append, splitDot, if_neg hc, List.append_eq, this]

/-- Fuel-driven digit renderer (the fuel makes the recursion structural, so
that terms evaluate inside the kernel). -/
def natToDecAux : Nat → Nat → List Char
  | 0, _ => []
  | fuel + 1, n =>
    if n < 10 then [Char.ofNat (48 + n)]
    else natToDecAux fuel (n / 10) ++ [Char.ofNat (48 + n % 10)]

/-- Decimal rendering of a natural number, as the platform `JSON.stringify`
prints the integral `exp` and `userId` values of the token payload. -/
def natToDec (n : Nat) : List Char := natToDecAux (n + 1) n

/-- The renderer ignores any sufficient fuel. -/
theorem natToDecAux_irrel : ∀ (f1 : Nat), ∀ n < f1, ∀ f2, n < f2 →
    natToDecAux f1 n = natToDecAux f2 n := by
  intro f1
  induction f1 with
  | zero => intro n hn; omega
  | succ f1' ih =>
    intro n hn f2 hn2
    cases f2 with
    | zero => omega
    | succ f2' =>
      by_cases h : n < 10
      · simp only [natToDecAux, if_pos h]
      · simp only [natToDecAux, if_neg h]
        rw [ih (n / 10) (by omega) f2' (by omega)]

/-- Unfolding equation of `natToDec` in its recursive form. -/
theorem natToDec_eq (n : Nat) :
    natToDec n = if n < 10 then [Char.ofNat (48 + n)]
      else natToDec (n / 10) ++ [Char.ofNat (48 + n % 10)] := by
  by_cases h : n < 10
  · simp only [natToDec, natToDecAux, if_pos h]
  · simp only [natToDec, natToDecAux, if_neg h]
    rw [natToDecAux_irrel n (n / 10) (by omega) (n / 10 + 1) (by omega)]
    rfl

/-- Digit-run accumulator of the decimal parser. -/
def parseNatAux : List Char → Nat → Nat × List Char
  | c :: rest, acc =>
    if c.isDigit then parseNatAux rest (acc * 10 + (c.toNat - 48)) else (acc, c :: rest)
  | [], acc => (acc, [])

/-- Decimal parser: reads a maximal nonempty digit run, as the platform
`JSON.parse` reads an integral number. -/
def parseNat : List Char → Option (Nat × List Char)
  | c :: rest => if c.isDigit then some (parseNatAux (c :: rest) 0) else none
  | [] => none

/-- Decimal digits render as digit characters with the expected code. -/
theorem decDigit_spec : ∀ n, n < 10 →
    (Char.ofNat (48 + n)).isDigit = true ∧ (Char.ofNat (48 + n)).toNat - 48 = n := by
  decide

/-- The accumulator consumes a rendered number and folds it into the
accumulated value. -/
theorem parseNatAux_append (n : Nat) : ∀ (acc : Nat) (rest : List Char),
    parseNatAux (natToDec n ++ rest) acc =
      parseNatAux rest (acc * 10 ^ (natToDec n).length + n) := by
  induction n using Nat.strong_induction_on with
  | _ n ih =>
    intro acc rest
    by_cases h : n < 10
    · rw [natToDec_eq, if_pos h]
      simp only [List.singleton_append, List.length_cons, List.length_nil, parseNatAux,
        (decDigit_spec n h).1, if_true, (decDigit_spec n h).2]
      norm_num
    · rw [natToDec_eq, if_neg h]
      rw [List.append_assoc, ih (n / 10) (Nat.div_lt_self (by omega) (by omega)) acc]
      simp only [List.singleton_append, parseNatAux,
        (decDigit_spec (n % 10) (by omega)).1, if_true,
        (decDigit_spec (n % 10) (by omega)).2]
      rw [List.length_append, List.length_singleton, pow_succ, ← mul_assoc]
      congr 1
      generalize acc * 10 ^ (natToDec (n / 10)).length = m
      omega

/-- Rendered numbers are nonempty and start with a digit. -/
theorem natToDec_head : ∀ n, ∃ c cs, natToDec n = c :: cs ∧ c.isDigit = true := by
  intro n
  induction n using Nat.strong_induction_on with
  | _ n ih =>
    by_cases h : n < 10
    · exact ⟨_, _, by rw [natToDec_eq, if_pos h], (decDigit_spec n h).1⟩
    · obtain ⟨c, cs, hcs, hdig⟩ := ih (n / 10) (Nat.div_lt_self (by omega) (by omega))
      exact ⟨c, cs ++ [Char.ofNat (48 + n % 10)],
        by rw [natToDec_eq, if_neg h, hcs]; rfl, hdig⟩

/-- Head-digit test used to state that a parse stops at the right place. -/
def headIsDigit : List Char → Bool
  | c :: _ => c.isDigit
  | [] => false

/-- Parsing a rendered number followed by a non-digit remainder recovers the
number and the remainder. -/
theorem parseNat_natToDec (n : Nat) (rest : List Char)
    (hrest : headIsDigit rest = false) :
    parseNat (natToDec n ++ rest) = some (n, rest) := by
  obtain ⟨c, cs, hcs, hdig⟩ := natToDec_head n
  have hstop : parseNatAux rest n = (n, rest) := by
    cases rest with
    | nil => rfl
    | cons d r =>
      simp only [headIsDigit] at hrest
      simp [parseNatAux, hrest]
  have := parseNatAux_append n 0 rest
  rw [Nat.zero_mul, Nat.zero_add, hstop] at this
  rw [hcs] at this ⊢
  simp only [List.cons_append, parseNat, hdig, if_true]
  rw [← List.cons_append, this]

/-- Token payload of `handlers/auth.ts`: `{ userId, role, username, exp }`,
with `exp` in milliseconds since the epoch. -/
structure TokenPayload where
  userId : Nat
  role : String
  username : String
  exp : Nat
deriving DecidableEq, Repr

/-- JSON string escaping as the platform `JSON.stringify` applies it to the
quote and backslash characters (the only escapes the payload strings can
trigger; control characters are not escaped in this embedding and round-trip
literally). -/
def jsonEscape : List Char → List Char
  | [] => []
  | c :: rest =>
    if c = '"' ∨ c = '\\' then '\\' :: c :: jsonEscape rest
    else c :: jsonEscape rest

/-- Serialization of the token payload: the platform
`JSON.stringify({userId, role, username, exp})` with its insertion key
order. -/
def payloadJson (p : TokenPayload) : List Char :=
  "\x7b\"userId\":".toList ++ natToDec p.userId ++
    ",\"role\":\"".toList ++ jsonEscape p.role.data ++
    "\",\"username\":\"".toList ++ jsonEscape p.username.data ++
    "\",\"exp\":".toList ++ natToDec p.exp ++ "\x7d".toList

/-- JSON string body parser: consumes up to and including the closing
unescaped quote, mapping `\c` to `c`. -/
def parseStringBody : List Char → Option (List Char × List Char)
  | [] => none
  | c :: rest =>
    if c = '\\' then
      match rest with
      | [] => none
      | d :: rest2 =>
        match parseStringBody rest2 with
        | some (s, r) => some (d :: s, r)
        | none => none
    else if c = '"' then some ([], rest)
    else
      match parseStringBody rest with
      | some (s, r) => some (c :: s, r)
      | none => none

/-- Literal matcher of the payload parser: consumes an expected prefix. -/
def expectLit : List Char → List Char → Option (List Char)
  | [], rest => some rest
  | _ :: _, [] => none
  | c :: cs, d :: rest => if c = d then expectLit cs rest else none

/-- Parser for the exact JSON shape `JSON.stringify` produces for the token
payload, standing in for the platform `JSON.parse` on the decoded first
token segment. -/
def parsePayload (l : List Char) : Option TokenPayload := do
  let r1 ← expectLit "\x7b\"userId\":".toList l
  let (uid, r2) ← parseNat r1
  let r3 ← expectLit ",\"role\":\"".toList r2
  let (role, r4) ← parseStringBody r3
  let r5 ← expectLit ",\"username\":\"".toList r4
  let (uname, r6) ← parseStringBody r5
  let r7 ← expectLit ",\"exp\":".toList r6
  let (e, r8) ← parseNat r7
  let r9 ← expectLit "\x7d".toList r8
  if r9 = [] then some ⟨uid, String.mk role, String.mk uname, e⟩ else none

/-- A literal prefix is consumed exactly. -/
theorem expectLit_append (pre rest : List Char) :
    expectLit pre (pre ++ rest) = some rest := by
  induction pre with
  | nil => rfl
  | cons c cs ih => simp [expectLit, ih]

/-- Unfolding: the parser closes on an unescaped quote. -/
theorem parseStringBody_quote (rest : List Char) :
    parseStringBody ('"' :: rest) = some ([], rest) := by
  rw [parseStringBody.eq_def]
  simp

/-- Unfolding: the parser maps an escape pair to its literal character. -/
theorem parseStringBody_esc (d : Char) (rest : List Char) :
    parseStringBody ('\\' :: d :: rest) =
      match parseStringBody rest with
      | some (s, r) => some (d :: s, r)
      | none => none := by
  rw [parseStringBody.eq_def]
  simp

/-- Unfolding: the parser keeps an ordinary character. -/
theorem parseStringBody_other (c : Char) (rest : List Char)
    (h1 : c ≠ '\\') (h2 : c ≠ '"') :
    parseStringBody (c :: rest) =
      match parseStringBody rest with
      | some (s, r) => some (c :: s, r)
      | none => none := by
  rw [parseStringBody.eq_def]
  simp [h1, h2]

/-- Parsing an escaped string body followed by the closing quote recovers
the string. -/
theorem parseStringBody_escape (s : List Char) : ∀ rest,
    parseStringBody (jsonEscape s ++ '"' :: rest) = some (s, rest) := by
  induction s with
  | nil =>
    intro rest
    exact parseStringBody_quote rest
  | cons c s' ih =>
    intro rest
    by_cases hc : c = '"' ∨ c = '\\'
    · simp only [jsonEscape, if_pos hc, List.cons_append]
      rw [parseStringBody_esc, ih rest]
    · have h1 : c ≠ '\\' := fun h => hc (Or.inr h)
      have h2 : c ≠ '"' := fun h => hc (Or.inl h)
      simp only [jsonEscape, if_neg hc, List.cons_append]
      rw [parseStringBody_other c _ h1 h2, ih rest]

/-- Parsing the serialized payload shape with abstract segments recovers the
components. -/
theorem parsePayload_build (uid e : Nat) (role uname : List Char) :
    parsePayload ("\x7b\"userId\":".toList ++ (natToDec uid ++ (",\"role\":\"".toList ++ (jsonEscape role ++ ('"' :: (",\"username\":\"".toList ++ (jsonEscape uname ++ ('"' :: (",\"exp\":".toList ++ (natToDec e ++ "\x7d".toList)))))))))) =
      some ⟨uid, String.mk role, String.mk uname, e⟩ := by
  simp only [parsePayload]
  rw [expectLit_append "\x7b\"userId\":".toList (natToDec uid ++ (",\"role\":\"".toList ++ (jsonEscape role ++ ('"' :: (",\"username\":\"".toList ++ (jsonEscape uname ++ ('"' :: (",\"exp\":".toList ++ (natToDec e ++ "\x7d".toList)))))))))]
  simp only [Option.bind_eq_bind, Option.some_bind]
  rw [parseNat_natToDec uid (",\"role\":\"".toList ++ (jsonEscape role ++ ('"' :: (",\"username\":\"".toList ++ (jsonEscape uname ++ ('"' :: (",\"exp\":".toList ++ (natToDec e ++ "\x7d".toList)))))))) rfl]
  simp only [Option.bind_eq_bind, Option.some_bind]
  rw [expectLit_append ",\"role\":\"".toList (jsonEscape role ++ ('"' :: (",\"username\":\"".toList ++ (jsonEscape uname ++ ('"' :: (",\"exp\":".toList ++ (natToDec e ++ "\x7d".toList)))))))]
  simp only [Option.bind_eq_bind, Option.some_bind]
  rw [parseStringBody_escape role (",\"username\":\"".toList ++ (jsonEscape uname ++ ('"' :: (",\"exp\":".toList ++ (natToDec e ++ "\x7d".toList)))))]
  simp only [Option.bind_eq_bind, Option.some_bind]
  rw [expectLit_append ",\"username\":\"".toList (jsonEscape uname ++ ('"' :: (",\"exp\":".toList ++ (natToDec e ++ "\x7d".toList))))]
  simp only [Option.bind_eq_bind, Option.some_bind]
  rw [parseStringBody_escape uname (",\"exp\":".toList ++ (natToDec e ++ "\x7d".toList))]
  simp only [Option.bind_eq_bind, Option.some_bind]
  rw [expectLit_append ",\"exp\":".toList (natToDec e ++ "\x7d".toList)]
  simp only [Option.bind_eq_bind, Option.some_bind]
  rw [parseNat_natToDec e "\x7d".toList rfl]
  simp only [Option.bind_eq_bind, Option.some_bind]
  rw [show expectLit "\x7d".toList "\x7d".toList = some ([] : List Char) from rfl]
  simp only [Option.bind_eq_bind, Option.some_bind]
  simp

/-- Parsing the serialized payload recovers the payload. -/
theorem parsePayload_payloadJson (p : TokenPayload) :
    parsePayload (payloadJson p) = some p := by
  have hq1 : ("\",\"username\":\"".toList : List Char) =
      '"' :: ",\"username\":\"".toList := rfl
  have hq2 : ("\",\"exp\":".toList : List Char) = '"' :: ",\"exp\":".toList := rfl
  have hpj : payloadJson p = "\x7b\"userId\":".toList ++
      (natToDec p.userId ++ (",\"role\":\"".toList ++ (jsonEscape p.role.data ++
        ('"' :: (",\"username\":\"".toList ++ (jsonEscape p.username.data ++
          ('"' :: (",\"exp\":".toList ++ (natToDec p.exp ++ "\x7d".toList))))))))) := by
    simp [payloadJson, hq1, hq2, List.append_assoc]
  rw [hpj]
  exact parsePayload_build p.userId p.exp p.role.data p.username.data

/-- Server secret of `handlers/auth.ts`:
`process.env['JWT_SECRET'] || 'your-secret-key'`, embedded as the default
value. -/
def JWT_SECRET : String := "your-secret-key"

/-- Login input (`loginInputSchema` of `src/server/src/schema.ts`). -/
structure LoginInput where
  username : String
  password : String
deriving Repr

/-- Embedding of `login` of `handlers/auth.ts` (`src/unnamed/part_007`):
username lookup, active-flag check, password verification (the platform
`Bun.password.verify` is passed in as `pwVerify`), then token construction
`btoa(JSON.stringify(payload)) + '.' + btoa(JWT_SECRET)` with `exp` 24 hours
(in milliseconds) after `now`.  Error strings are the source's messages; a
`btoa` failure surfaces as the platform's `InvalidCharacterError`. -/
def login (users : List User) (pwVerify : String → String → Bool) (now : Nat)
    (input : LoginInput) : Except String (User × String) :=
  match users.find? (fun u => u.username == input.username) with
  | none => .error "Invalid username or password"
  | some user =>
    if user.is_active = false then .error "User account is disabled"
    else if pwVerify input.password user.password_hash = false then
      .error "Invalid username or password"
    else
      match btoa (String.mk (payloadJson
          ⟨user.id, user.role, user.username, now + 24 * 60 * 60 * 1000⟩)),
        btoa JWT_SECRET with
      | some payloadB64, some sigB64 => .ok (user, payloadB64 ++ "." ++ sigB64)
      | _, _ => .error "InvalidCharacterError"

/-- Embedding of `validateToken` of `handlers/auth.ts`: split on dots
(exactly two parts or reject), compare the signature segment against
`btoa(JWT_SECRET)`, decode and parse the payload (platform exceptions become
`none`), reject a past expiry, then re-check that the referenced user still
exists and is active.  Every failure collapses to `none`. -/
def validateToken (users : List User) (now : Nat) (token : String) :
    Option (Nat × String) :=
  match splitDot token.data with
  | [payloadPart, signaturePart] =>
    match btoa JWT_SECRET with
    | none => none
    | some expectedSignature =>
      if signaturePart ≠ expectedSignature.data then none
      else
        match decodeChunks payloadPart with
        | none => none
        | some bytes =>
          match parsePayload (bytes.map Char.ofNat) with
          | none => none
          | some payload =>
            if payload.exp < now then none
            else
              match users.find? (fun u => u.id == payload.userId) with
              | none => none
              | some u =>
                if u.is_active = false then none
                else some (payload.userId, payload.role)
  | _ => none

/-- C4: for an active user whose credentials check out, verifying the token
immediately after `login` issues it succeeds and returns exactly that user's
id and role, and the token's encoded payload carries the expiry
`tIssue + 24 * 60 * 60 * 1000` milliseconds.  The latin1 hypothesis is the
platform `btoa` precondition (login would throw otherwise); `tVerify` may be
any instant up to the expiry. -/
theorem verify_issue_roundtrip (users : List User) (pwVerify : String → String → Bool)
    (tIssue tVerify : Nat) (input : LoginInput) (user : User)
    (hfindu : users.find? (fun u => u.username == input.username) = some user)
    (hactive : user.is_active = true)
    (hpw : pwVerify input.password user.password_hash = true)
    (hlatin : ∀ c ∈ payloadJson ⟨user.id, user.role, user.username,
        tIssue + 24 * 60 * 60 * 1000⟩, c.toNat ≤ 255)
    (hfindid : users.find? (fun u => u.id == user.id) = some user)
    (htime : tVerify ≤ tIssue + 24 * 60 * 60 * 1000) :
    ∃ token, login users pwVerify tIssue input = .ok (user, token) ∧
      validateToken users tVerify token = some (user.id, user.role) ∧
      ∃ pp sig, splitDot token.data = [pp, sig] ∧
        (decodeChunks pp).bind (fun bs => parsePayload (bs.map Char.ofNat)) =
          some ⟨user.id, user.role, user.username, tIssue + 24 * 60 * 60 * 1000⟩ := by
  set PJ : List Char := payloadJson ⟨user.id, user.role, user.username,
    tIssue + 24 * 60 * 60 * 1000⟩ with hPJ
  have hcond : PJ.all (fun c => c.toNat ≤ 255) = true := by
    rw [List.all_eq_true]
    intro c hc
    exact decide_eq_true (hlatin c hc)
  have hb1 : btoa (String.mk PJ) =
      some (String.mk (encodeChunks (PJ.map Char.toNat))) := by
    unfold btoa
    rw [if_pos hcond]
  have hb2 : btoa JWT_SECRET =
      some (String.mk (encodeChunks (JWT_SECRET.data.map Char.toNat))) := rfl
  have hlogin : login users pwVerify tIssue input =
      .ok (user, String.mk (encodeChunks (PJ.map Char.toNat)) ++ "." ++
        String.mk (encodeChunks (JWT_SECRET.data.map Char.toNat))) := by
    simp only [login, hfindu, hactive, hpw, ← hPJ, hb1, hb2]
    rfl
  have hdata : (String.mk (encodeChunks (PJ.map Char.toNat)) ++ "." ++
      String.mk (encodeChunks (JWT_SECRET.data.map Char.toNat))).data =
      encodeChunks (PJ.map Char.toNat) ++ '.' ::
        encodeChunks (JWT_SECRET.data.map Char.toNat) := by
    simp [String.data_append, List.append_assoc]
  have hsplit : splitDot (String.mk (encodeChunks (PJ.map Char.toNat)) ++ "." ++
      String.mk (encodeChunks (JWT_SECRET.data.map Char.toNat))).data =
      [encodeChunks (PJ.map Char.toNat),
        encodeChunks (JWT_SECRET.data.map Char.toNat)] := by
    rw [hdata]
    exact splitDot_two _ _ (encodeChunks_ne_dot _) (encodeChunks_ne_dot _)
  have hbytes : ∀ b ∈ PJ.map Char.toNat, b < 256 := by
    intro b hb
    obtain ⟨c, hc, rfl⟩ := List.mem_map.mp hb
    have := hlatin c hc
    omega
  have hdec : decodeChunks (encodeChunks (PJ.map Char.toNat)) =
      some (PJ.map Char.toNat) := decodeChunks_encodeChunks _ hbytes
  have hmapback : (PJ.map Char.toNat).map Char.ofNat = PJ := by
    rw [List.map_map]
    exact map_eq_self_of _ _ (fun c _ => by simp [Char.ofNat_toNat])
  have hparse : parsePayload ((PJ.map Char.toNat).map Char.ofNat) =
      some ⟨user.id, user.role, user.username, tIssue + 24 * 60 * 60 * 1000⟩ := by
    rw [hmapback, hPJ]
    exact parsePayload_payloadJson _
  have hvalid : validateToken users tVerify
      (String.mk (encodeChunks (PJ.map Char.toNat)) ++ "." ++
        String.mk (encodeChunks (JWT_SECRET.data.map Char.toNat))) =
      some (user.id, user.role) := by
    have hexp : ¬(tIssue + 24 * 60 * 60 * 1000 < tVerify) := by omega
    simp only [validateToken, hsplit, hb2]
    rw [if_neg (fun hh => hh rfl)]
    simp only [hdec, hparse]
    rw [if_neg hexp]
    simp only [hfindid, hactive]
    rfl
  refine ⟨_, hlogin, hvalid, _, _, hsplit, ?_⟩
  rw [hdec]
  simpa using hparse

/-- Concrete active user used to witness the auth theorems. -/
def wUser : User :=
  { id := 1, username := "admin", password_hash := "h", role := "admin", full_name := "A"
    email := none, is_active := true, created_at := 0, updated_at := 0 }

/-- Instantiation of the C4 theorem: issue at instant 0 for the concrete
user, verify at instant 1000. -/
theorem verify_issue_roundtrip_witness :
    ∃ token, login [wUser] (fun _ _ => true) 0 ⟨"admin", "pw"⟩ = .ok (wUser, token) ∧
      validateToken [wUser] 1000 token = some (wUser.id, wUser.role) ∧
      ∃ pp sig, splitDot token.data = [pp, sig] ∧
        (decodeChunks pp).bind (fun bs => parsePayload (bs.map Char.ofNat)) =
          some ⟨wUser.id, wUser.role, wUser.username, 0 + 24 * 60 * 60 * 1000⟩ :=
  verify_issue_roundtrip [wUser] (fun _ _ => true) 0 1000 ⟨"admin", "pw"⟩ wUser
    (by decide) (by decide) (by decide) (by decide) (by decide) (by decide)

/-- C5: `validateToken` returns the single invalid outcome `none` for every
rejection cause: wrong number of dot-separated parts (which covers the empty
string), signature segment differing from the encoded server secret, encoded
expiry strictly in the past, referenced user missing, and referenced user
deactivated (deactivation alone suffices).  No distinct error is produced
per cause — the interface offers only `none`. -/
theorem validateToken_single_invalid (users : List User) (now : Nat) (token : String) :
    ((splitDot token.data).length ≠ 2 → validateToken users now token = none) ∧
    (∀ pp sig ex, splitDot token.data = [pp, sig] → btoa JWT_SECRET = some ex →
      sig ≠ ex.data → validateToken users now token = none) ∧
    (∀ pp sig p, splitDot token.data = [pp, sig] →
      (decodeChunks pp).bind (fun bs => parsePayload (bs.map Char.ofNat)) = some p →
      p.exp < now → validateToken users now token = none) ∧
    (∀ pp sig p, splitDot token.data = [pp, sig] →
      (decodeChunks pp).bind (fun bs => parsePayload (bs.map Char.ofNat)) = some p →
      users.find? (fun u => u.id == p.userId) = none →
      validateToken users now token = none) ∧
    (∀ pp sig p u, splitDot token.data = [pp, sig] →
      (decodeChunks pp).bind (fun bs => parsePayload (bs.map Char.ofNat)) = some p →
      users.find? (fun u => u.id == p.userId) = some u → u.is_active = false →
      validateToken users now token = none) := by
  have hsec : btoa JWT_SECRET =
      some (String.mk (encodeChunks (JWT_SECRET.data.map Char.toNat))) := rfl
  refine ⟨?_, ?_, ?_, ?_, ?_⟩
  · intro h
    simp only [validateToken]
    rcases hl : splitDot token.data with _ | ⟨a, _ | ⟨b, _ | ⟨c, t⟩⟩⟩
    · rfl
    · rfl
    · rw [hl] at h
      simp at h
    · rfl
  · intro pp sig ex hsplit hb hne
    simp only [validateToken, hsplit, hb]
    rw [if_pos hne]
  · intro pp sig p hsplit hbind hexp
    obtain ⟨bs, hdec, hparse⟩ := Option.bind_eq_some.mp hbind
    simp only [validateToken, hsplit, hsec]
    by_cases hs : sig ≠ (String.mk (encodeChunks (JWT_SECRET.data.map Char.toNat))).data
    · rw [if_pos hs]
    · rw [if_neg hs]
      simp only [hdec, hparse]
      rw [if_pos hexp]
  · intro pp sig p hsplit hbind hnone
    obtain ⟨bs, hdec, hparse⟩ := Option.bind_eq_some.mp hbind
    simp only [validateToken, hsplit, hsec]
    by_cases hs : sig ≠ (String.mk (encodeChunks (JWT_SECRET.data.map Char.toNat))).data
    · rw [if_pos hs]
    · rw [if_neg hs]
      simp only [hdec, hparse]
      by_cases he : p.exp < now
      · rw [if_pos he]
      · rw [if_neg he]
        simp only [hnone]
  · intro pp sig p u hsplit hbind hfind hinact
    obtain ⟨bs, hdec, hparse⟩ := Option.bind_eq_some.mp hbind
    simp only [validateToken, hsplit, hsec]
    by_cases hs : sig ≠ (String.mk (encodeChunks (JWT_SECRET.data.map Char.toNat))).data
    · rw [if_pos hs]
    · rw [if_neg hs]
      simp only [hdec, hparse]
      by_cases he : p.exp < now
      · rw [if_pos he]
      · rw [if_neg he]
        simp only [hfind, hinact]
        rfl

/-- Base64 payload segment for the concrete user with expiry `e`, used in
the auth witnesses. -/
def wPayloadEnc (e : Nat) : List Char :=
  encodeChunks ((payloadJson ⟨1, "admin", "admin", e⟩).map Char.toNat)

/-- Base64 signature segment (encoded server secret), used in the auth
witnesses. -/
def wSigEnc : List Char := encodeChunks (JWT_SECRET.data.map Char.toNat)

/-- Well-formed concrete token with expiry `e`, used in the auth
witnesses. -/
def wTokenExp (e : Nat) : String :=
  String.mk (wPayloadEnc e) ++ "." ++ String.mk wSigEnc

/-- Concrete deactivated user, used in the auth witnesses. -/
def wUserInactive : User :=
  { id := 1, username := "bob", password_hash := "h", role := "teacher", full_name := "B"
    email := none, is_active := false, created_at := 0, updated_at := 0 }

/-- Instantiation of the C5 theorem on five concrete rejections: a dotless
token, a wrong signature, an expired payload, a dangling user reference, and
a deactivated user. -/
theorem validateToken_single_invalid_witness :
    validateToken [] 0 "abc" = none ∧
    validateToken [] 0 (String.mk (wPayloadEnc 99) ++ ".AAAA") = none ∧
    validateToken [] 10 (wTokenExp 5) = none ∧
    validateToken [] 0 (wTokenExp 86400000) = none ∧
    validateToken [wUserInactive] 0 (wTokenExp 86400000) = none :=
  ⟨(validateToken_single_invalid [] 0 "abc").1 (by decide),
   (validateToken_single_invalid [] 0 _).2.1 (wPayloadEnc 99) "AAAA".data
     (String.mk wSigEnc) (by decide) rfl (by decide),
   (validateToken_single_invalid [] 10 _).2.2.1 (wPayloadEnc 5) wSigEnc
     ⟨1, "admin", "admin", 5⟩ (by decide) (by decide) (by decide),
   (validateToken_single_invalid [] 0 _).2.2.2.1 (wPayloadEnc 86400000) wSigEnc
     ⟨1, "admin", "admin", 86400000⟩ (by decide) (by decide) (by decide),
   (validateToken_single_invalid [wUserInactive] 0 _).2.2.2.2 (wPayloadEnc 86400000)
     wSigEnc ⟨1, "admin", "admin", 86400000⟩ wUserInactive
     (by decide) (by decide) (by decide) (by decide)⟩

/-- C6: login failures: an unknown username and a wrong password for an
existing active user produce the character-for-character identical message
"Invalid username or password" (no username enumeration); an inactive user
produces the distinct "User account is disabled" failure, and that outcome
holds for every password verifier, so the inactive check runs after lookup
and before the password comparison. -/
theorem login_error_discipline (users : List User) (now : Nat) :
    (∀ (pwVerify : String → String → Bool) (input : LoginInput),
      users.find? (fun u => u.username == input.username) = none →
      login users pwVerify now input = .error "Invalid username or password") ∧
    (∀ (pwVerify : String → String → Bool) (input : LoginInput) (user : User),
      users.find? (fun u => u.username == input.username) = some user →
      user.is_active = true →
      pwVerify input.password user.password_hash = false →
      login users pwVerify now input = .error "Invalid username or password") ∧
    (∀ (pwVerify : String → String → Bool) (input : LoginInput) (user : User),
      users.find? (fun u => u.username == input.username) = some user →
      user.is_active = false →
      login users pwVerify now input = .error "User account is disabled") := by
  refine ⟨?_, ?_, ?_⟩
  · intro pv input h
    simp only [login, h]
  · intro pv input user h ha hp
    simp only [login, h, ha, hp]
    rfl
  · intro pv input user h ha
    simp only [login, h, ha]
    rfl

/-- Instantiation of the C6 theorem: unknown username, wrong password and
deactivated account on a concrete directory. -/
theorem login_error_discipline_witness :
    login [wUser, wUserInactive] (fun _ _ => true) 0 ⟨"nobody", "x"⟩ =
      .error "Invalid username or password" ∧
    login [wUser, wUserInactive] (fun _ _ => false) 0 ⟨"admin", "wrong"⟩ =
      .error "Invalid username or password" ∧
    login [wUser, wUserInactive] (fun _ _ => true) 0 ⟨"bob", "x"⟩ =
      .error "User account is disabled" :=
  ⟨(login_error_discipline [wUser, wUserInactive] 0).1 _ _ (by decide),
   (login_error_discipline [wUser, wUserInactive] 0).2.1 _ _ wUser
     (by decide) (by decide) (by decide),
   (login_error_discipline [wUser, wUserInactive] 0).2.2 _ _ wUserInactive
     (by decide) (by decide)⟩

/-- C7: every token produced by a successful login is exactly the base64 of
the JSON object `{userId, role, username, exp}` — `exp` in milliseconds
since the epoch, 24 hours after issuance — followed by a dot, followed by
the base64 of the server secret, and nothing else: splitting the token at
dots recovers exactly those two segments. -/
theorem token_wire_format (users : List User) (pwVerify : String → String → Bool)
    (now : Nat) (input : LoginInput) (user : User) (token : String)
    (h : login users pwVerify now input = .ok (user, token)) :
    ∃ payloadB64 sigB64 : String,
      btoa (String.mk (payloadJson ⟨user.id, user.role, user.username,
        now + 24 * 60 * 60 * 1000⟩)) = some payloadB64 ∧
      btoa JWT_SECRET = some sigB64 ∧
      token = payloadB64 ++ "." ++ sigB64 ∧
      splitDot token.data = [payloadB64.data, sigB64.data] := by
  simp only [login] at h
  rcases hf : users.find? (fun u => u.username == input.username) with _ | u'
  · simp only [hf] at h
    simp at h
  · simp only [hf] at h
    by_cases ha : u'.is_active = false
    · rw [if_pos ha] at h
      simp at h
    · rw [if_neg ha] at h
      by_cases hp : pwVerify input.password u'.password_hash = false
      · rw [if_pos hp] at h
        simp at h
      · rw [if_neg hp] at h
        rcases hb : btoa (String.mk (payloadJson
            ⟨u'.id, u'.role, u'.username, now + 24 * 60 * 60 * 1000⟩)) with _ | pb
        · rw [hb] at h
          simp at h
        · rcases hb2 : btoa JWT_SECRET with _ | sb
          · rw [hb2] at h
            simp at h
          · rw [hb, hb2] at h
            obtain ⟨h1, h2⟩ : u' = user ∧ pb ++ "." ++ sb = token := by
              simpa using h
            subst h1
            subst h2
            have hpb : pb.data = encodeChunks ((payloadJson
                ⟨u'.id, u'.role, u'.username, now + 24 * 60 * 60 * 1000⟩).map
                  Char.toNat) := by
              unfold btoa at hb
              split at hb
              · cases hb
                rfl
              · cases hb
            have hsb : sb.data = encodeChunks (JWT_SECRET.data.map Char.toNat) := by
              have hconc : btoa JWT_SECRET =
                  some (String.mk (encodeChunks (JWT_SECRET.data.map Char.toNat))) := rfl
              rw [hconc] at hb2
              cases hb2
              rfl
            refine ⟨pb, sb, hb, rfl, rfl, ?_⟩
            have hdata : (pb ++ "." ++ sb).data = pb.data ++ '.' :: sb.data := by
              simp [String.data_append, List.append_assoc]
            rw [hdata, splitDot_two]
            · rw [hpb]
              exact encodeChunks_ne_dot _
            · rw [hsb]
              exact encodeChunks_ne_dot _

/-- Instantiation of the C7 theorem on a concrete successful login. -/
theorem token_wire_format_witness :
    ∃ payloadB64 sigB64 : String,
      btoa (String.mk (payloadJson ⟨wUser.id, wUser.role, wUser.username,
        0 + 24 * 60 * 60 * 1000⟩)) = some payloadB64 ∧
      btoa JWT_SECRET = some sigB64 ∧
      wTokenExp 86400000 = payloadB64 ++ "." ++ sigB64 ∧
      splitDot (wTokenExp 86400000).data = [payloadB64.data, sigB64.data] :=
  token_wire_format [wUser] (fun _ _ => true) 0 ⟨"admin", "pw"⟩ wUser
    (wTokenExp 86400000) rfl

end AbsensiQr
